import Mathlib

/-!
Shallow embedding of the differential inverse-kinematics assembly engine of
the `pink` repository (body task, damping task, bounded tangent subspace,
position barrier), together with theorems checking the natural-language
specification against the code.

Real-valued quantities handled exactly (costs, gains, Jacobian and error
entries) are embedded as rationals; the class-K comparison function, which
involves a Euclidean norm, is embedded over the reals.
-/

open Matrix

namespace Pink

/-- A rigid transform is opaque to the assembly engine: `body_task.py` only
ever hands transforms to the kinematics provider and to `body_box_minus`.
We therefore parameterise the body-task embedding by an arbitrary pose type
`T` and by a box-minus map `T → T → (Fin 6 → ℚ)`. -/
structure ConfiguredRobot (n : ℕ) (T : Type) where
  get_transform_body_to_world : String → T
  get_body_jacobian : String → Matrix (Fin 6) (Fin n) ℚ

/-- Embedding of `BodyTask` (src/pink/tasks/body_task.py).  The `gain`
attribute lives on the `Task` base class, whose file is not in src/; the
spec describes it as a proportional feedback scaling, so it is embedded as
a plain rational field. -/
structure BodyTask (T : Type) where
  body : String
  cost : Fin 6 → ℚ
  error_in_body : Fin 6 → ℚ
  gain : ℚ
  lm_damping : ℚ
  transform_target_to_world : Option T

namespace BodyTask

/-- Embedding of `BodyTask.compute_error_in_body`.  The Python method raises
`TargetNotSet` when no target has been set, otherwise computes
`-body_box_minus(target, current)` and stores it in `self.error_in_body`
before returning it; the embedding returns the error vector together with
the updated task object. -/
def compute_error_in_body (bm : T → T → (Fin 6 → ℚ)) (robot : ConfiguredRobot n T)
    (t : BodyTask T) : Except String ((Fin 6 → ℚ) × BodyTask T) :=
  match t.transform_target_to_world with
  | none => .error ("no target set for body " ++ t.body)
  | some target =>
    let e : Fin 6 → ℚ :=
      fun i => -(bm target (robot.get_transform_body_to_world t.body) i)
    .ok (e, { t with error_in_body := e })

/-- Embedding of `BodyTask.compute_task_dynamics`: returns the body Jacobian
paired with `gain * error`. -/
def compute_task_dynamics (bm : T → T → (Fin 6 → ℚ)) (robot : ConfiguredRobot n T)
    (t : BodyTask T) :
    Except String ((Matrix (Fin 6) (Fin n) ℚ) × (Fin 6 → ℚ) × BodyTask T) :=
  (compute_error_in_body bm robot t).map
    (fun p => (robot.get_body_jacobian t.body, t.gain • p.1, p.2))

/-- Embedding of `BodyTask.compute_qp_objective`:
`W = diag(cost)`, `Jw = W J`, `ew = W (gain e)`, `mu = lm_damping ewᵀew`,
`H = Jwᵀ Jw + mu I_nv`, `c = -ewᵀ Jw`. -/
def compute_qp_objective (bm : T → T → (Fin 6 → ℚ)) (robot : ConfiguredRobot n T)
    (t : BodyTask T) :
    Except String ((Matrix (Fin n) (Fin n) ℚ) × (Fin n → ℚ) × BodyTask T) :=
  (compute_task_dynamics bm robot t).map
    (fun p =>
      let weight : Matrix (Fin 6) (Fin 6) ℚ := Matrix.diagonal t.cost
      let weighted_jacobian := weight * p.1
      let weighted_error := weight *ᵥ p.2.1
      let mu := t.lm_damping * (weighted_error ⬝ᵥ weighted_error)
      (weighted_jacobian.transpose * weighted_jacobian +
          mu • (1 : Matrix (Fin n) (Fin n) ℚ),
        -(weighted_error ᵥ* weighted_jacobian), p.2.2))

end BodyTask

/-- Spec-side definition (from the spec's words, for comparison with the
code): weighted Jacobian `Jw = W·J` with `W = diag(cost)`. -/
def specWeightedJacobian (cost : Fin 6 → ℚ) (J : Matrix (Fin 6) (Fin n) ℚ) :
    Matrix (Fin 6) (Fin n) ℚ :=
  Matrix.diagonal cost * J

/-- Spec-side definition: weighted error `ew = W·(gain·e)`. -/
def specWeightedError (cost : Fin 6 → ℚ) (gain : ℚ) (e : Fin 6 → ℚ) :
    Fin 6 → ℚ :=
  Matrix.diagonal cost *ᵥ (gain • e)

/-- Spec-side definition: adaptive damping `mu = lm_damping · (ewᵀ ew)`. -/
def specMu (lm_damping : ℚ) (ew : Fin 6 → ℚ) : ℚ :=
  lm_damping * (ew ⬝ᵥ ew)

/-- Spec-side definition: `H = Jwᵀ Jw + mu · I_n` on the full tangent space. -/
def specH (Jw : Matrix (Fin 6) (Fin n) ℚ) (mu : ℚ) : Matrix (Fin n) (Fin n) ℚ :=
  Jw.transpose * Jw + mu • (1 : Matrix (Fin n) (Fin n) ℚ)

/-- Spec-side definition: `c = −ewᵀ Jw`. -/
def specC (ew : Fin 6 → ℚ) (Jw : Matrix (Fin 6) (Fin n) ℚ) : Fin n → ℚ :=
  -(ew ᵥ* Jw)

/-- The error value computed by `compute_error_in_body` when a target is set:
the negated box-minus between target and current body pose. -/
def errorValue (bm : T → T → (Fin 6 → ℚ)) (robot : ConfiguredRobot n T)
    (t : BodyTask T) (target : T) : Fin 6 → ℚ :=
  fun i => -(bm target (robot.get_transform_body_to_world t.body) i)

/-- Embedding of a Pinocchio joint as seen by the engine: configuration-space
index and width, tangent-space index and width.  The universe placeholder
joint of a Pinocchio model has `idx_q = idx_v = -1` and `nq = nv = 0`, hence
the integer index types. -/
structure Joint where
  idx_q : ℤ
  nq : ℕ
  idx_v : ℤ
  nv : ℕ
deriving DecidableEq

/-- Embedding of the parts of a Pinocchio robot model the engine reads:
dimensions, per-coordinate position limits, per-axis velocity limits, and
the joint list.  Limits are total functions on indices; the code only ever
evaluates them inside each joint's index range.  The `root_joint` field is
modelled from the spec: `get_root_joint_dim` (pink/utils.py, absent from
src/) returns the configuration/tangent dimensions of the joint named
`root_joint` when the model has one (a floating base) and `(0, 0)`
otherwise; we record that optional joint directly. -/
structure Model where
  nq : ℕ
  nv : ℕ
  lowerPositionLimit : ℤ → ℚ
  upperPositionLimit : ℤ → ℚ
  velocityLimit : ℤ → ℚ
  joints : List Joint
  root_joint : Option Joint

/-- Embedding of `has_configuration_limit` (src/pink/bounded_tangent.py):
`upper < 1e20 AND upper > lower + 1e-10`, coordinatewise. -/
def has_configuration_limit (m : Model) (i : ℤ) : Bool :=
  decide (m.upperPositionLimit i < (10 : ℚ) ^ 20) &&
    decide (m.lowerPositionLimit i + 1 / (10 : ℚ) ^ 10 < m.upperPositionLimit i)

/-- The list-comprehension filter of `BoundedTangent.__init__`: a joint is
kept iff `idx_q >= 0` and every configuration coordinate in
`[idx_q, idx_q + nq)` has a configuration limit.  (Python short-circuits,
so the slice is only taken when `idx_q >= 0`.) -/
def jointIsBounded (m : Model) (j : Joint) : Bool :=
  decide (0 ≤ j.idx_q) &&
    (List.range j.nq).all (fun k : ℕ => has_configuration_limit m (j.idx_q + (k : ℤ)))

def boundedJoints (m : Model) : List Joint :=
  m.joints.filter (jointIsBounded m)

/-- The index range `range(joint.idx_v, joint.idx_v + joint.nv)`. -/
def tangentRange (j : Joint) : List ℤ :=
  (List.range j.nv).map (fun k : ℕ => j.idx_v + (k : ℤ))

/-- Row `i` of `np.eye(n)`: the standard basis row vector. -/
def eyeRow (n : ℕ) (i : ℤ) : List ℚ :=
  (List.range n).map (fun c => if (c : ℤ) = i then 1 else 0)

/-- Embedding of the `BoundedTangent` attributes set by its constructor.
The `tangent_dim` field is modelled from the spec: `project` compares the
input length against `self.space.dim`, the dimension of the enclosing
`VectorSpace` base class (pink/utils.py, absent from src/), which the spec
identifies as the full tangent-space dimension. -/
structure BoundedTangent where
  dim : ℕ
  indices : List ℤ
  joints : List Joint
  projection_matrix : Option (List (List ℚ))
  velocity_limit : Option (List ℚ)
  tangent_dim : ℕ

/-- Embedding of `BoundedTangent.__init__` (src/pink/bounded_tangent.py). -/
def boundedTangent (m : Model) : BoundedTangent :=
  let joints := boundedJoints m
  let indices := joints.flatMap tangentRange
  let dim := indices.length
  { dim := dim
    indices := indices
    joints := joints
    projection_matrix :=
      if 0 < dim then some (indices.map (eyeRow m.nv)) else none
    velocity_limit :=
      if joints.isEmpty then none else some (indices.map m.velocityLimit)
    tangent_dim := m.nv }

/-- Embedding of `BoundedTangent.project`: asserts the input has the full
tangent-space dimension, then gathers the entries at `indices`. -/
def BoundedTangent.project (bt : BoundedTangent) (v : List ℚ) :
    Except String (List ℚ) :=
  if v.length = bt.tangent_dim then
    .ok (bt.indices.map (fun i => v.getD i.toNat 0))
  else
    .error ("Dimension mismatch")

/-- The claim-side eligibility predicate for a joint, following the spec's
words: every configuration coordinate has a finite upper position limit and
the bound interval exceeds the epsilon.  (The code's finiteness test is
`< 1e20`.) -/
def BoundedJointSpec (m : Model) (j : Joint) : Prop :=
  ∀ k < j.nq,
    m.upperPositionLimit (j.idx_q + k) < (10 : ℚ) ^ 20 ∧
      m.lowerPositionLimit (j.idx_q + k) + 1 / (10 : ℚ) ^ 10 <
        m.upperPositionLimit (j.idx_q + k)

instance (m : Model) (j : Joint) : Decidable (BoundedJointSpec m j) := by
  unfold BoundedJointSpec; infer_instance

/-- Modelled from the spec: `get_root_joint_dim` (pink/utils.py, absent
from src/) returns the root joint's configuration and tangent dimensions
when the model has a root joint, and `(0, 0)` otherwise. -/
def get_root_joint_dim (m : Model) : ℕ × ℕ :=
  match m.root_joint with
  | some j => (j.nq, j.nv)
  | none => (0, 0)

/-- Euclidean norm of a real vector, as `np.linalg.norm`. -/
noncomputable def euclideanNorm (h : List ℝ) : ℝ :=
  Real.sqrt ((h.map (fun x => x ^ 2)).sum)

/-- The default class-K comparison function hard-wired by
`PositionCBF.__init__`: `lambda h: 1 / (1 + np.linalg.norm(h))`. -/
noncomputable def defaultClassK (h : List ℝ) : ℝ :=
  1 / (1 + euclideanNorm h)

/-- A rigid transform as the barrier reads it: only the translation part is
used. -/
structure SE3 where
  translation : Fin 3 → ℝ

/-- Embedding of the parts of `Configuration` the new-API tasks and
barriers read: the model plus the kinematics provider's frame transforms
and 6-row frame Jacobians (rows as lists). -/
structure Configuration where
  model : Model
  get_transform_frame_to_world : String → SE3
  get_frame_jacobian : String → List (List ℝ)

/-- Embedding of `PositionCBF` attributes
(src/pink/␣barriers/position_barrier.py). -/
structure PositionCBF where
  frame : String
  p_min : Option (Fin 3 → ℝ)
  p_max : Option (Fin 3 → ℝ)
  mask : Option (List ℕ)
  gain : ℝ
  class_k_fn : List ℝ → ℝ
  dim : ℕ

/-- Embedding of `PositionCBF.__init__`: inside the constructor `min` and
`max` are the parameters, so `dim` counts 3 per supplied bound; the class-K
function is hard-wired to the default. -/
noncomputable def mkPositionCBF (frame : String) (mask : Option (List ℕ))
    (mn mx : Option (Fin 3 → ℝ)) (gain : ℝ) : PositionCBF :=
  { frame := frame
    p_min := mn
    p_max := mx
    mask := mask
    gain := gain
    class_k_fn := defaultClassK
    dim := (if mn.isSome then 3 else 0) + (if mx.isSome then 3 else 0) }

/-- Embedding of `PositionCBF.compute_barrier`.  In the method body `min`
and `max` are the Python builtins (free names), never `None`, so BOTH sides
are always evaluated; when a stored bound is `None` the subtraction
`pos_world - self.p_min` (or `self.p_max - pos_world`) raises a
`TypeError`.  The mask is never consulted. -/
def PositionCBF.compute_barrier (b : PositionCBF) (configuration : Configuration) :
    Except String (List ℝ) :=
  let pos_world := (configuration.get_transform_frame_to_world b.frame).translation
  match b.p_min, b.p_max with
  | some pmin, some pmax =>
    .ok ((List.ofFn fun i => pos_world i - pmin i) ++
      (List.ofFn fun i => pmax i - pos_world i))
  | _, _ => .error ("TypeError: unsupported operand type with None")

/-- Embedding of `PositionCBF.compute_jacobian`.  Again `min`/`max` are the
builtins, so both blocks are always appended, and `np.hstack` glues the two
3-row blocks side by side (each row is the concatenation of a position
Jacobian row with its negation), instead of stacking them vertically. -/
def PositionCBF.compute_jacobian (b : PositionCBF) (configuration : Configuration) :
    List (List ℝ) :=
  let pos_jac := (configuration.get_frame_jacobian b.frame).take 3
  List.zipWith (fun r s => r ++ s) pos_jac (pos_jac.map (List.map Neg.neg))

/-- Embedding of `DampingTask` (src/pink/tasks/damping_task.py); the `cost`
attribute lives on the `JointVelocityTask` base class. -/
structure DampingTask where
  cost : ℝ

/-- Embedding of `DampingTask.compute_error`:
`np.zeros(model.nv - root_nv)`. -/
def DampingTask.compute_error (_t : DampingTask) (configuration : Configuration) :
    List ℝ :=
  List.replicate (configuration.model.nv - (get_root_joint_dim configuration.model).2) 0

end Pink

open Pink

/-! Concrete instances used by the witness and counterexample theorems. -/

def c1bm : Unit → Unit → Fin 6 → ℚ := fun _ _ _ => 1

def c1robot : ConfiguredRobot 1 Unit :=
  { get_transform_body_to_world := fun _ => ()
    get_body_jacobian := fun _ => fun _ _ => 1 }

def c1t : BodyTask Unit :=
  { body := "link"
    cost := fun _ => 1
    error_in_body := fun _ => 0
    gain := 1
    lm_damping := 1 / 1000000
    transform_target_to_world := some () }

def c4bm : Unit → Unit → Fin 6 → ℚ := fun _ _ _ => 1

def c4robot : ConfiguredRobot 1 Unit :=
  { get_transform_body_to_world := fun _ => ()
    get_body_jacobian := fun _ => fun _ _ => 1 }

def c4t : BodyTask Unit :=
  { body := "b"
    cost := fun _ => 1
    error_in_body := fun _ => 0
    gain := 1
    lm_damping := 1
    transform_target_to_world := some () }

def c4H : Matrix (Fin 1) (Fin 1) ℚ :=
  specH (specWeightedJacobian c4t.cost (c4robot.get_body_jacobian c4t.body))
    (specMu c4t.lm_damping
      (specWeightedError c4t.cost c4t.gain (errorValue c4bm c4robot c4t ())))

def c4c : Fin 1 → ℚ :=
  specC (specWeightedError c4t.cost c4t.gain (errorValue c4bm c4robot c4t ()))
    (specWeightedJacobian c4t.cost (c4robot.get_body_jacobian c4t.body))

def c4t1 : BodyTask Unit :=
  { c4t with error_in_body := errorValue c4bm c4robot c4t () }

def c4xbm : Unit → Unit → Fin 6 → ℚ := fun _ _ _ => 1

def c4xrobot : ConfiguredRobot 1 Unit :=
  { get_transform_body_to_world := fun _ => ()
    get_body_jacobian := fun _ => 0 }

def c4xt : BodyTask Unit :=
  { body := "b"
    cost := fun _ => 1
    error_in_body := fun _ => 0
    gain := 1
    lm_damping := -1
    transform_target_to_world := some () }

def c6bm : Unit → Unit → Fin 6 → ℚ := fun _ _ _ => 2

def c6robot : ConfiguredRobot 1 Unit :=
  { get_transform_body_to_world := fun _ => ()
    get_body_jacobian := fun _ => fun _ _ => 0 }

def c6tnone : BodyTask Unit :=
  { body := "left_wrist"
    cost := fun _ => 1
    error_in_body := fun _ => 0
    gain := 1
    lm_damping := 0
    transform_target_to_world := none }

def c6tsome : BodyTask Unit :=
  { c6tnone with transform_target_to_world := some () }

def c8bm : Unit → Unit → Fin 6 → ℚ := fun _ _ _ => 1

def c8robot : ConfiguredRobot 1 Unit :=
  { get_transform_body_to_world := fun _ => ()
    get_body_jacobian := fun _ => fun _ _ => 0 }

def c8t : BodyTask Unit :=
  { body := "b"
    cost := fun _ => 1
    error_in_body := fun _ => 0
    gain := 1
    lm_damping := 0
    transform_target_to_world := some () }

def c8e : Fin 6 → ℚ := fun _ => -1

def c8t1 : BodyTask Unit := { c8t with error_in_body := c8e }

def c3j1 : Joint := { idx_q := 0, nq := 1, idx_v := 0, nv := 1 }

def c3j2 : Joint := { idx_q := 1, nq := 1, idx_v := 1, nv := 1 }

/-- A two-joint model: the first joint has finite bounds of width 1, the
second an upper limit beyond the 1e20 finiteness cutoff. -/
def c3m : Model :=
  { nq := 2
    nv := 2
    lowerPositionLimit := fun _ => 0
    upperPositionLimit := fun i => if i = 0 then 1 else (10 : ℚ) ^ 21
    velocityLimit := fun _ => 5
    joints := [c3j1, c3j2]
    root_joint := none }

/-- The Pinocchio universe placeholder joint: not attached to the
configuration vector, zero width in both spaces. -/
def universeJoint : Joint := { idx_q := -1, nq := 0, idx_v := -1, nv := 0 }

def universeModel : Model :=
  { nq := 0
    nv := 0
    lowerPositionLimit := fun _ => 0
    upperPositionLimit := fun _ => 0
    velocityLimit := fun _ => 0
    joints := [universeJoint]
    root_joint := none }

def c5j : Joint := { idx_q := 0, nq := 1, idx_v := 0, nv := 1 }

def c5m : Model :=
  { nq := 1
    nv := 2
    lowerPositionLimit := fun _ => 0
    upperPositionLimit := fun _ => 1
    velocityLimit := fun _ => 3
    joints := [c5j]
    root_joint := none }

def c2model : Model :=
  { nq := 0
    nv := 0
    lowerPositionLimit := fun _ => 0
    upperPositionLimit := fun _ => 0
    velocityLimit := fun _ => 0
    joints := []
    root_joint := none }

def c2cfg : Configuration :=
  { model := c2model
    get_transform_frame_to_world := fun _ => { translation := fun _ => 0 }
    get_frame_jacobian := fun _ => List.replicate 6 (List.replicate 1 0) }

noncomputable def c2bmin : PositionCBF :=
  mkPositionCBF ("ee") none (some fun _ => 0) none 1

noncomputable def c2both : PositionCBF :=
  mkPositionCBF ("ee") none (some fun _ => 0) (some fun _ => 1) 1

noncomputable def c2masked : PositionCBF :=
  mkPositionCBF ("ee") (some [0]) (some fun _ => 0) (some fun _ => 1) 1

/-- Helper: the dot product of a rational vector with itself is
nonnegative. -/
theorem dotProduct_self_nonneg_q {k : ℕ} (v : Fin k → ℚ) : 0 ≤ v ⬝ᵥ v :=
  Finset.sum_nonneg fun i _ => mul_self_nonneg (v i)

/-- Helper: the adaptive damping scalar is nonnegative whenever the
damping coefficient is. -/
theorem specMu_nonneg {lm : ℚ} (hlm : 0 ≤ lm) (ew : Fin 6 → ℚ) :
    0 ≤ specMu lm ew :=
  mul_nonneg hlm (dotProduct_self_nonneg_q ew)

/-- Helper: the Gram-plus-damping Hessian is symmetric. -/
theorem specH_transpose {n : ℕ} (Jw : Matrix (Fin 6) (Fin n) ℚ) (mu : ℚ) :
    (specH Jw mu).transpose = specH Jw mu := by
  unfold specH
  rw [transpose_add, transpose_mul, transpose_transpose, transpose_smul,
    transpose_one]

/-- Helper: the Gram-plus-damping Hessian is positive semidefinite when
the damping scalar is nonnegative. -/
theorem specH_psd {n : ℕ} (Jw : Matrix (Fin 6) (Fin n) ℚ) (mu : ℚ)
    (hmu : 0 ≤ mu) (x : Fin n → ℚ) : 0 ≤ x ⬝ᵥ (specH Jw mu *ᵥ x) := by
  unfold specH
  rw [add_mulVec, dotProduct_add]
  have h1 : x ⬝ᵥ ((Jw.transpose * Jw) *ᵥ x) = (Jw *ᵥ x) ⬝ᵥ (Jw *ᵥ x) := by
    rw [← mulVec_mulVec, dotProduct_mulVec, vecMul_transpose]
  have h2 : x ⬝ᵥ ((mu • (1 : Matrix (Fin n) (Fin n) ℚ)) *ᵥ x) =
      mu * (x ⬝ᵥ x) := by
    rw [smul_mulVec_assoc, one_mulVec, dotProduct_smul, smul_eq_mul]
  rw [h1, h2]
  exact add_nonneg (dotProduct_self_nonneg_q _)
    (mul_nonneg hmu (dotProduct_self_nonneg_q x))

/-- Helper: evaluation of `compute_qp_objective` when a target is set,
in terms of the spec-side definitions. -/
theorem qp_objective_eval {n : ℕ} {T : Type} (bm : T → T → (Fin 6 → ℚ))
    (robot : ConfiguredRobot n T) (t : BodyTask T) (target : T)
    (h : t.transform_target_to_world = some target) :
    BodyTask.compute_qp_objective bm robot t =
      .ok
        (specH (specWeightedJacobian t.cost (robot.get_body_jacobian t.body))
          (specMu t.lm_damping
            (specWeightedError t.cost t.gain (errorValue bm robot t target))),
         specC
            (specWeightedError t.cost t.gain (errorValue bm robot t target))
            (specWeightedJacobian t.cost (robot.get_body_jacobian t.body)),
         { t with error_in_body := errorValue bm robot t target }) := by
  simp only [BodyTask.compute_qp_objective, BodyTask.compute_task_dynamics,
    BodyTask.compute_error_in_body, h, Except.map, specH, specWeightedJacobian,
    specWeightedError, specMu, specC, errorValue]
  rfl

/-- C1: with a target set, `compute_qp_objective` returns exactly
`H = Jwᵀ Jw + mu I_n` and `c = −ewᵀ Jw` with `Jw = diag(cost)·J`,
`ew = diag(cost)·(gain·e)`, `mu = lm_damping·(ewᵀ ew)`, `I_n` the identity
on the full tangent space, `J` the body Jacobian and `e` the box-minus
error. -/
theorem c1_qp_objective_formula {n : ℕ} {T : Type} (bm : T → T → (Fin 6 → ℚ))
    (robot : ConfiguredRobot n T) (t : BodyTask T) (target : T)
    (h : t.transform_target_to_world = some target) :
    BodyTask.compute_qp_objective bm robot t =
      .ok
        (specH (specWeightedJacobian t.cost (robot.get_body_jacobian t.body))
          (specMu t.lm_damping
            (specWeightedError t.cost t.gain (errorValue bm robot t target))),
         specC
            (specWeightedError t.cost t.gain (errorValue bm robot t target))
            (specWeightedJacobian t.cost (robot.get_body_jacobian t.body)),
         { t with error_in_body := errorValue bm robot t target }) :=
  qp_objective_eval bm robot t target h

/-- C1 witness: the formula theorem applied to a concrete one-joint robot
with a set target. -/
theorem c1_qp_objective_witness :
    c1t.transform_target_to_world = some () ∧
    BodyTask.compute_qp_objective c1bm c1robot c1t =
      .ok
        (specH (specWeightedJacobian c1t.cost (c1robot.get_body_jacobian c1t.body))
          (specMu c1t.lm_damping
            (specWeightedError c1t.cost c1t.gain (errorValue c1bm c1robot c1t ()))),
         specC
            (specWeightedError c1t.cost c1t.gain (errorValue c1bm c1robot c1t ()))
            (specWeightedJacobian c1t.cost (c1robot.get_body_jacobian c1t.body)),
         { c1t with error_in_body := errorValue c1bm c1robot c1t () }) :=
  ⟨rfl, c1_qp_objective_formula c1bm c1robot c1t () rfl⟩

/-- C4 (amended): for every task whose cost entries are nonnegative and
whose Levenberg-Marquardt damping coefficient is nonnegative (as its
default 1e-6 is), the Hessian returned by `compute_qp_objective` is
symmetric and positive semidefinite. -/
theorem c4_H_symmetric_psd {n : ℕ} {T : Type} (bm : T → T → (Fin 6 → ℚ))
    (robot : ConfiguredRobot n T) (t : BodyTask T)
    (_hcost : ∀ i, 0 ≤ t.cost i) (hlm : 0 ≤ t.lm_damping)
    (H : Matrix (Fin n) (Fin n) ℚ) (c : Fin n → ℚ) (t' : BodyTask T)
    (h : BodyTask.compute_qp_objective bm robot t = .ok (H, c, t')) :
    H.transpose = H ∧ ∀ x : Fin n → ℚ, 0 ≤ x ⬝ᵥ (H *ᵥ x) := by
  cases ht : t.transform_target_to_world with
  | none =>
    exfalso
    simp only [BodyTask.compute_qp_objective, BodyTask.compute_task_dynamics,
      BodyTask.compute_error_in_body, ht, Except.map] at h
    exact Except.noConfusion h
  | some target =>
    rw [qp_objective_eval bm robot t target ht, Except.ok.injEq] at h
    have hH : specH
        (specWeightedJacobian t.cost (robot.get_body_jacobian t.body))
        (specMu t.lm_damping
          (specWeightedError t.cost t.gain (errorValue bm robot t target))) =
        H := congrArg Prod.fst h
    subst hH
    exact ⟨specH_transpose _ _,
      fun x => specH_psd _ _ (specMu_nonneg hlm _) x⟩

/-- C4 witness: symmetry and positive semidefiniteness at a concrete task
with unit cost and damping. -/
theorem c4_psd_witness :
    c4H.transpose = c4H ∧
    0 ≤ (fun _ : Fin 1 => (1 : ℚ)) ⬝ᵥ (c4H *ᵥ fun _ : Fin 1 => (1 : ℚ)) := by
  have h := c4_H_symmetric_psd c4bm c4robot c4t
    (fun i => by norm_num [c4t]) (by norm_num [c4t])
    c4H c4c c4t1 (qp_objective_eval c4bm c4robot c4t () rfl)
  exact ⟨h.1, h.2 _⟩

/-- C4 counterexample: with a negative `lm_damping` (which the constructor
does not reject) and all cost entries nonnegative, the returned Hessian
fails positive semidefiniteness: the quadratic form at the all-ones vector
evaluates to -6. -/
theorem c4_negative_damping_counterexample :
    (∀ i, 0 ≤ c4xt.cost i) ∧
    (BodyTask.compute_qp_objective c4xbm c4xrobot c4xt).map
        (fun p => (fun _ : Fin 1 => (1 : ℚ)) ⬝ᵥ (p.1 *ᵥ fun _ : Fin 1 => (1 : ℚ))) =
      .ok (-6) ∧
    ¬ (0 : ℚ) ≤ -6 := by
  refine ⟨fun i => by norm_num [c4xt], ?_, by norm_num⟩
  rw [qp_objective_eval c4xbm c4xrobot c4xt () rfl]
  simp only [Except.map]
  congr 1
  simp [specH, specWeightedJacobian, specMu, specWeightedError, errorValue,
    c4xbm, c4xrobot, c4xt, dotProduct, Matrix.mulVec, Matrix.vecMul,
    Matrix.diagonal, Matrix.one_apply, Fin.sum_univ_succ, Matrix.add_apply,
    Matrix.smul_apply, Matrix.mul_apply, Matrix.transpose_apply,
    Matrix.zero_apply]

/-- C6: before any target is set, `compute_error_in_body` (and hence the
QP objective computation) fails with the unset-target condition naming the
offending task's body; once a target is set the error computation
succeeds. -/
theorem c6_target_not_set {n : ℕ} {T : Type} (bm : T → T → (Fin 6 → ℚ))
    (robot : ConfiguredRobot n T) (t : BodyTask T) :
    (t.transform_target_to_world = none →
      BodyTask.compute_error_in_body bm robot t =
        .error ("no target set for body " ++ t.body) ∧
      BodyTask.compute_qp_objective bm robot t =
        .error ("no target set for body " ++ t.body)) ∧
    (∀ target, t.transform_target_to_world = some target →
      BodyTask.compute_error_in_body bm robot t =
        .ok (errorValue bm robot t target,
          { t with error_in_body := errorValue bm robot t target })) := by
  constructor
  · intro h
    constructor
    · simp only [BodyTask.compute_error_in_body, h]
    · simp only [BodyTask.compute_qp_objective, BodyTask.compute_task_dynamics,
        BodyTask.compute_error_in_body, h, Except.map]
  · intro target h
    simp only [BodyTask.compute_error_in_body, h]
    rfl

/-- C6 witness: a task with no target fails with the message naming its
body; the same task with a target set succeeds. -/
theorem c6_target_witness :
    BodyTask.compute_error_in_body c6bm c6robot c6tnone =
      .error ("no target set for body " ++ c6tnone.body) ∧
    BodyTask.compute_qp_objective c6bm c6robot c6tnone =
      .error ("no target set for body " ++ c6tnone.body) ∧
    BodyTask.compute_error_in_body c6bm c6robot c6tsome =
      .ok (errorValue c6bm c6robot c6tsome (),
        { c6tsome with error_in_body := errorValue c6bm c6robot c6tsome () }) := by
  have h1 := (c6_target_not_set c6bm c6robot c6tnone).1 rfl
  have h2 := (c6_target_not_set c6bm c6robot c6tsome).2 () rfl
  exact ⟨h1.1, h1.2, h2⟩

/-- C8 (amended): computing the error or the QP objective reads only the
configuration and the task's stored parameters and writes only the
`error_in_body` diagnostic attribute; body, cost, gain, lm_damping and the
stored target persist unchanged, and a repeated call on the same
configuration returns the identical result. -/
theorem c8_state_effects {n : ℕ} {T : Type} (bm : T → T → (Fin 6 → ℚ))
    (robot : ConfiguredRobot n T) (t : BodyTask T) :
    (∀ e t', BodyTask.compute_error_in_body bm robot t = .ok (e, t') →
      t'.body = t.body ∧ t'.cost = t.cost ∧ t'.gain = t.gain ∧
      t'.lm_damping = t.lm_damping ∧
      t'.transform_target_to_world = t.transform_target_to_world ∧
      t'.error_in_body = e ∧
      BodyTask.compute_error_in_body bm robot t' = .ok (e, t')) ∧
    (∀ H c t', BodyTask.compute_qp_objective bm robot t = .ok (H, c, t') →
      BodyTask.compute_qp_objective bm robot t' = .ok (H, c, t')) := by
  cases ht : t.transform_target_to_world with
  | none =>
    constructor
    · intro e t' h
      simp only [BodyTask.compute_error_in_body, ht] at h
      exact Except.noConfusion h
    · intro H c t' h
      simp only [BodyTask.compute_qp_objective, BodyTask.compute_task_dynamics,
        BodyTask.compute_error_in_body, ht, Except.map] at h
      exact Except.noConfusion h
  | some target =>
    have hcompute : BodyTask.compute_error_in_body bm robot t =
        .ok (errorValue bm robot t target,
          { t with error_in_body := errorValue bm robot t target }) := by
      simp only [BodyTask.compute_error_in_body, ht]
      rfl
    constructor
    · intro e t' h
      rw [hcompute, Except.ok.injEq] at h
      have he : errorValue bm robot t target = e := congrArg Prod.fst h
      have ht' : ({ t with error_in_body := errorValue bm robot t target } :
          BodyTask T) = t' := congrArg Prod.snd h
      subst he
      subst ht'
      refine ⟨rfl, rfl, rfl, rfl, ht, rfl, ?_⟩
      simp only [BodyTask.compute_error_in_body, ht]
      rfl
    · intro H c t' h
      rw [qp_objective_eval bm robot t target ht, Except.ok.injEq] at h
      have hH : specH
          (specWeightedJacobian t.cost (robot.get_body_jacobian t.body))
          (specMu t.lm_damping
            (specWeightedError t.cost t.gain (errorValue bm robot t target))) =
          H := congrArg Prod.fst h
      have hc : specC
          (specWeightedError t.cost t.gain (errorValue bm robot t target))
          (specWeightedJacobian t.cost (robot.get_body_jacobian t.body)) =
          c := congrArg (fun p => p.2.1) h
      have ht' : ({ t with error_in_body := errorValue bm robot t target } :
          BodyTask T) = t' := congrArg (fun p => p.2.2) h
      subst hH
      subst hc
      subst ht'
      exact qp_objective_eval bm robot _ target ht

/-- C8 witness: the state-effects theorem at a concrete task whose stored
diagnostic error differs from the computed one. -/
theorem c8_state_witness :
    c8t1.body = c8t.body ∧ c8t1.cost = c8t.cost ∧ c8t1.gain = c8t.gain ∧
    c8t1.lm_damping = c8t.lm_damping ∧
    c8t1.transform_target_to_world = c8t.transform_target_to_world ∧
    c8t1.error_in_body = c8e ∧
    BodyTask.compute_error_in_body c8bm c8robot c8t1 = .ok (c8e, c8t1) :=
  (c8_state_effects c8bm c8robot c8t).1 c8e c8t1 rfl

/-- C8 counterexample: `compute_error_in_body` does mutate the task
object: on a task whose stored `error_in_body` is zero it returns an
updated task that differs from the original, so the computation is not
mutation-free as claimed. -/
theorem c8_mutation_counterexample :
    BodyTask.compute_error_in_body c8bm c8robot c8t = .ok (c8e, c8t1) ∧
    c8t1 ≠ c8t := by
  constructor
  · rfl
  · intro hEq
    have h0 := congrFun (congrArg BodyTask.error_in_body hEq) 0
    norm_num [c8t1, c8e, c8t] at h0

/-- Helper: the code's boolean joint filter agrees with the claim-side
eligibility predicate together with the `idx_q >= 0` guard. -/
theorem jointIsBounded_iff (m : Model) (j : Joint) :
    jointIsBounded m j = true ↔ (0 ≤ j.idx_q ∧ BoundedJointSpec m j) := by
  simp [jointIsBounded, has_configuration_limit, BoundedJointSpec,
    List.all_eq_true, List.mem_range]

/-- Helper: the constructor's joint filter, rewritten through the
claim-side predicate. -/
theorem boundedJoints_filter_spec (m : Model) :
    boundedJoints m =
      m.joints.filter (fun j => decide (0 ≤ j.idx_q ∧ BoundedJointSpec m j)) := by
  unfold boundedJoints
  apply List.filter_congr
  intro j _
  by_cases hp : (0 ≤ j.idx_q ∧ BoundedJointSpec m j)
  · rw [(jointIsBounded_iff m j).mpr hp, decide_eq_true hp]
  · rw [decide_eq_false hp]
    cases hb : jointIsBounded m j with
    | false => rfl
    | true => exact absurd ((jointIsBounded_iff m j).mp hb) hp

/-- C3 (amended): a joint enters the bounded subspace iff it is an actual
joint (nonnegative configuration index, which excludes the Pinocchio
universe placeholder) and every one of its configuration coordinates has a
finite upper position limit with the bound interval exceeding the epsilon;
the index list is the concatenation, in joint order, of the eligible
joints' tangent index ranges; the projection matrix is the identity
restricted to those rows, absent when no joint is eligible; the velocity
limit vector is the model's per-axis limits restricted to those indices. -/
theorem c3_bounded_tangent_characterisation (m : Model)
    (hnv : ∀ j ∈ m.joints, 0 ≤ j.idx_q → 1 ≤ j.nv) :
    (∀ j ∈ m.joints,
      (j ∈ (boundedTangent m).joints ↔ 0 ≤ j.idx_q ∧ BoundedJointSpec m j)) ∧
    (boundedTangent m).indices =
      (m.joints.filter
        (fun j => decide (0 ≤ j.idx_q ∧ BoundedJointSpec m j))).flatMap
        tangentRange ∧
    ((boundedTangent m).joints = [] →
      (boundedTangent m).projection_matrix = none ∧
      (boundedTangent m).velocity_limit = none) ∧
    ((boundedTangent m).joints ≠ [] →
      (boundedTangent m).projection_matrix =
        some ((boundedTangent m).indices.map (eyeRow m.nv)) ∧
      (boundedTangent m).velocity_limit =
        some ((boundedTangent m).indices.map m.velocityLimit)) := by
  have hjoints : (boundedTangent m).joints = boundedJoints m := rfl
  have hindices : (boundedTangent m).indices =
      (boundedJoints m).flatMap tangentRange := rfl
  refine ⟨?_, ?_, ?_, ?_⟩
  · intro j hj
    rw [hjoints]
    unfold boundedJoints
    rw [List.mem_filter]
    simp [hj, jointIsBounded_iff]
  · rw [hindices, boundedJoints_filter_spec]
  · intro hempty
    rw [hjoints] at hempty
    have hnil : (boundedJoints m).flatMap tangentRange = [] := by
      rw [hempty]; rfl
    constructor
    · show (if 0 < ((boundedJoints m).flatMap tangentRange).length then
          some (((boundedJoints m).flatMap tangentRange).map (eyeRow m.nv))
        else none) = none
      rw [hnil]
      rfl
    · show (if (boundedJoints m).isEmpty then none
        else some (((boundedJoints m).flatMap tangentRange).map m.velocityLimit)) =
        none
      rw [hempty]
      rfl
  · intro hne
    rw [hjoints] at hne
    obtain ⟨j, hj⟩ := List.exists_mem_of_ne_nil _ hne
    have hjb : jointIsBounded m j = true := (List.mem_filter.mp hj).2
    have hjm : j ∈ m.joints := (List.mem_filter.mp hj).1
    have hq : 0 ≤ j.idx_q := ((jointIsBounded_iff m j).mp hjb).1
    have h1 : 1 ≤ j.nv := hnv j hjm hq
    have hmem : j.idx_v ∈ tangentRange j := by
      unfold tangentRange
      rw [List.mem_map]
      refine ⟨0, List.mem_range.mpr h1, ?_⟩
      simp
    have hmemFlat : j.idx_v ∈ (boundedJoints m).flatMap tangentRange := by
      rw [List.mem_flatMap]
      exact ⟨j, hj, hmem⟩
    have hpos : 0 < ((boundedJoints m).flatMap tangentRange).length :=
      List.length_pos_iff_ne_nil.mpr (List.ne_nil_of_mem hmemFlat)
    constructor
    · show (if 0 < ((boundedJoints m).flatMap tangentRange).length then
          some (((boundedJoints m).flatMap tangentRange).map (eyeRow m.nv))
        else none) =
        some ((boundedTangent m).indices.map (eyeRow m.nv))
      rw [if_pos hpos, hindices]
    · show (if (boundedJoints m).isEmpty then none
        else some (((boundedJoints m).flatMap tangentRange).map m.velocityLimit)) =
        some ((boundedTangent m).indices.map m.velocityLimit)
      rw [hindices]
      cases he : (boundedJoints m).isEmpty with
      | false => rfl
      | true => exact absurd (List.isEmpty_iff.mp he) hne

/-- C3 witness: the characterisation at a two-joint model whose first
joint has finite bounds of width 1 and whose second joint's upper limit
lies beyond the 1e20 finiteness cutoff. -/
theorem c3_bounded_witness :
    (c3j1 ∈ (boundedTangent c3m).joints ↔
      0 ≤ c3j1.idx_q ∧ BoundedJointSpec c3m c3j1) ∧
    (boundedTangent c3m).indices =
      (c3m.joints.filter
        (fun j => decide (0 ≤ j.idx_q ∧ BoundedJointSpec c3m j))).flatMap
        tangentRange ∧
    (boundedTangent c3m).projection_matrix =
      some ((boundedTangent c3m).indices.map (eyeRow c3m.nv)) ∧
    (boundedTangent c3m).velocity_limit =
      some ((boundedTangent c3m).indices.map c3m.velocityLimit) := by
  have e1 : jointIsBounded c3m c3j1 = true := by
    simp [jointIsBounded, has_configuration_limit, c3m, c3j1, List.all_eq_true]
    norm_num
  have hne : (boundedTangent c3m).joints ≠ [] := by
    have hmem : c3j1 ∈ (boundedTangent c3m).joints := by
      show c3j1 ∈ boundedJoints c3m
      unfold boundedJoints
      rw [List.mem_filter]
      exact ⟨by simp [c3m], e1⟩
    exact List.ne_nil_of_mem hmem
  have h := c3_bounded_tangent_characterisation c3m (by decide)
  refine ⟨h.1 c3j1 (by simp [c3m]), h.2.1, ?_, ?_⟩
  · exact (h.2.2.2 hne).1
  · exact (h.2.2.2 hne).2

/-- C3 counterexample: the Pinocchio universe placeholder joint has no
configuration coordinates, so the claim's eligibility condition holds for
it vacuously, yet the constructor excludes it (its `idx_q` is -1): the
inclusion-iff-eligible claim fails as stated. -/
theorem c3_universe_counterexample :
    BoundedJointSpec universeModel universeJoint ∧
    universeJoint ∈ universeModel.joints ∧
    universeJoint ∉ (boundedTangent universeModel).joints := by
  refine ⟨?_, by decide, by decide⟩
  intro k hk
  exact absurd hk (Nat.not_lt_zero k)

/-- C5: `project` succeeds iff the input vector has exactly the full
tangent-space dimension, returning the sub-vector gathered at the bounded
indices in index order, and otherwise fails with the dimension-mismatch
error and no partial result. -/
theorem c5_project_dimension_check (m : Model) (v : List ℚ) :
    ((boundedTangent m).project v = .error ("Dimension mismatch") ↔
      v.length ≠ m.nv) ∧
    (v.length = m.nv →
      (boundedTangent m).project v =
        .ok ((boundedTangent m).indices.map (fun i => v.getD i.toNat 0))) := by
  have hproj : (boundedTangent m).project v =
      if v.length = m.nv then
        .ok ((boundedTangent m).indices.map (fun i => v.getD i.toNat 0))
      else .error ("Dimension mismatch") := rfl
  by_cases hlen : v.length = m.nv
  · rw [hproj, if_pos hlen]
    exact ⟨by simp [hlen], fun _ => rfl⟩
  · rw [hproj, if_neg hlen]
    exact ⟨by simp [hlen], fun h => absurd h hlen⟩

/-- C5 witness: on a model with tangent dimension 2 and one bounded
1-DOF joint, a length-2 vector projects to its gathered entries and a
length-1 vector is rejected. -/
theorem c5_project_witness :
    (boundedTangent c5m).project [3, 4] =
      .ok ((boundedTangent c5m).indices.map
        (fun i => [(3 : ℚ), 4].getD i.toNat 0)) ∧
    (boundedTangent c5m).project [3] = .error ("Dimension mismatch") := by
  refine ⟨(c5_project_dimension_check c5m [3, 4]).2 rfl, ?_⟩
  exact ((c5_project_dimension_check c5m [3]).1).mpr (by decide)

/-- C2 (code bug evaluation): with only the min bound set,
`compute_barrier` fails with a TypeError instead of returning the
3-row min-side barrier; with both bounds set the barrier dimension is 6
but `compute_jacobian` returns 3 rows whose length is twice the tangent
dimension (np.hstack instead of row stacking); with an axis mask set the
barrier vector still has all 6 rows, so masked axes are not excluded. -/
theorem c2_position_barrier_bug_eval :
    PositionCBF.compute_barrier c2bmin c2cfg =
      .error ("TypeError: unsupported operand type with None") ∧
    c2both.dim = 6 ∧
    (PositionCBF.compute_jacobian c2both c2cfg).length = 3 ∧
    (PositionCBF.compute_jacobian c2both c2cfg).map List.length = [2, 2, 2] ∧
    (PositionCBF.compute_jacobian c2both c2cfg).length ≠ c2both.dim ∧
    (PositionCBF.compute_barrier c2masked c2cfg).map List.length = .ok 6 := by
  refine ⟨rfl, rfl, rfl, rfl, by decide, rfl⟩

/-- C7 (amended): the class-K comparison function stored by a position
barrier is the hard-wired default `1 / (1 + norm h)`; that function is
strictly positive and monotonically DECREASING in the margin norm, and
it equals 1 (not 0) at zero margin, so it is not a strict class-K
function. -/
theorem c7_default_class_k_properties :
    ∀ (frame : String) (mask : Option (List ℕ)) (mn mx : Option (Fin 3 → ℝ))
      (g : ℝ),
      (mkPositionCBF frame mask mn mx g).class_k_fn = defaultClassK ∧
      defaultClassK (List.replicate 3 0) = 1 ∧
      (∀ h : List ℝ, 0 < defaultClassK h) ∧
      (∀ h h' : List ℝ, euclideanNorm h ≤ euclideanNorm h' →
        defaultClassK h' ≤ defaultClassK h) := by
  intro frame mask mn mx g
  have hnn : ∀ h : List ℝ, 0 ≤ euclideanNorm h := fun h => Real.sqrt_nonneg _
  refine ⟨rfl, ?_, ?_, ?_⟩
  · simp [defaultClassK, euclideanNorm, List.map_replicate, List.sum_replicate]
  · intro h
    unfold defaultClassK
    have h0 := hnn h
    apply one_div_pos.mpr
    linarith
  · intro h h' hle
    unfold defaultClassK
    have h0 := hnn h
    apply one_div_le_one_div_of_le
    · linarith
    · linarith

/-- C7 witness: the stored function is the default, its value at the zero
margin vector is 1, it is positive at the empty margin, and a margin of
larger norm is mapped to a smaller allowed rate. -/
theorem c7_class_k_witness :
    (mkPositionCBF ("f") none none none 1).class_k_fn = defaultClassK ∧
    defaultClassK (List.replicate 3 0) = 1 ∧
    0 < defaultClassK ([] : List ℝ) ∧
    defaultClassK [(3 : ℝ)] ≤ defaultClassK ([] : List ℝ) := by
  have h := c7_default_class_k_properties ("f") none none none 1
  refine ⟨h.1, h.2.1, h.2.2.1 [], h.2.2.2 [] [(3 : ℝ)] ?_⟩
  simp [euclideanNorm]

/-- C7 counterexample: the claim requires the stored comparison function
to vanish at zero margin, but the stored default evaluates to 1 at the
zero margin vector. -/
theorem c7_not_vanishing_counterexample :
    (mkPositionCBF ("f") none none none 1).class_k_fn (List.replicate 3 0) = 1 ∧
    (1 : ℝ) ≠ 0 := by
  constructor
  · show defaultClassK (List.replicate 3 0) = 1
    simp [defaultClassK, euclideanNorm, List.map_replicate, List.sum_replicate]
  · norm_num

/-- C9: `DampingTask.compute_error` returns the zero vector whose
dimension is the model's tangent-space dimension minus the root joint's
free-motion dimension. -/
theorem c9_damping_error_zero (t : DampingTask) (configuration : Configuration) :
    DampingTask.compute_error t configuration =
      List.replicate
        (configuration.model.nv - (get_root_joint_dim configuration.model).2)
        0 ∧
    (DampingTask.compute_error t configuration).length =
      configuration.model.nv - (get_root_joint_dim configuration.model).2 :=
  ⟨rfl, List.length_replicate _ _⟩
